import Mathlib

/-!
Verification of the pycontainer build/push engine against its specification.

The Python sources (src/pycontainer/) are shallowly embedded below:
pure functions become Lean functions, the mutable client/cache state is
passed explicitly, and the filesystem and network are oracles supplied as
function arguments.  SHA-256 digests are modelled by the exact byte string
that the code feeds to the hasher (the claims only ever need that the
digest is a *function* of that input, never injectivity).  Python `dict`s
are modelled as insertion-ordered association lists with the CPython
semantics: inserting an existing key updates the value in place and keeps
the key's position, inserting a fresh key appends.
-/

namespace PyContainer

/-! ### Character-list string utilities

Python string operations used by the sources (`split`, `rsplit`,
`in`, `lstrip`, `lower`, f-strings) implemented over `String.data`
so that everything kernel-reduces. -/

/-- Does `s` contain the character `c`?  (Python `c in s`.) -/
def strContainsChar (s : String) (c : Char) : Bool :=
  s.data.any (fun x => decide (x = c))

/-- Auxiliary worker for `splitOnChar`. -/
def splitOnCharAux (c : Char) : List Char → List Char → List (List Char)
  | [], acc => [acc.reverse]
  | x :: xs, acc =>
    if x = c then acc.reverse :: splitOnCharAux c xs []
    else splitOnCharAux c xs (x :: acc)

/-- Python `s.split(c)` for a one-character separator. -/
def splitOnChar (c : Char) (s : List Char) : List (List Char) :=
  splitOnCharAux c s []

/-- Split at the first occurrence of `c`: Python `s.split(c, 1)` when `c in s`,
`none` when `c` does not occur. -/
def breakAtChar (c : Char) : List Char → Option (List Char × List Char)
  | [] => none
  | x :: xs =>
    if x = c then some ([], xs)
    else (breakAtChar c xs).map (fun p => (x :: p.1, p.2))

/-- Split at the last occurrence of `c`: Python `s.rsplit(c, 1)` when `c in s`. -/
def breakAtLastChar (c : Char) (s : List Char) : Option (List Char × List Char) :=
  match breakAtChar c s.reverse with
  | none => none
  | some (a, b) => some (b.reverse, a.reverse)

/-- Python `"sep".join(parts)` for a one-character separator. -/
def joinWithChar (c : Char) : List (List Char) → List Char
  | [] => []
  | [x] => x
  | x :: xs => x ++ c :: joinWithChar c xs

/-- The part of a digest after the first colon: Python `digest.split(':', 1)[1]`
(`""` stands for the `IndexError` a colon-free digest would raise; every digest
produced or consumed by the code has the form `sha256:<hex>`). -/
def hexPart (d : String) : String :=
  match breakAtChar ':' d.data with
  | some p => ⟨p.2⟩
  | none => ""

/-- Python `s.lstrip('/')`. -/
def lstripSlash (s : String) : String :=
  ⟨s.data.dropWhile (fun ch => decide (ch = '/'))⟩

/-- Python `s.lower()` (the labels the code lowercases are ASCII). -/
def strLower (s : String) : String :=
  ⟨s.data.map Char.toLower⟩

/-- Does list `s` start with `p`? -/
def startsWithL : List Char → List Char → Bool
  | [], _ => true
  | _ :: _, [] => false
  | a :: as, b :: bs => decide (a = b) && startsWithL as bs

/-- Does `s` contain `sub` as a contiguous substring?  (Python `sub in s`.) -/
def containsSubL (sub : List Char) : List Char → Bool
  | [] => startsWithL sub []
  | s@(_ :: rest) => startsWithL sub s || containsSubL sub rest

/-- Python `sub in s` on strings. -/
def strContainsSub (s sub : String) : Bool :=
  containsSubL sub.data s.data

/-- Python's `sorted(..., key=...)` is modelled by `List.insertionSort`,
which is stable like CPython's sort; the comparison relations on the key
types are named below so the sortedness lemmas apply. -/
def relLePair (a b : String × String) : Prop := a.2 ≤ b.2

instance : DecidableRel relLePair :=
  fun a b => inferInstanceAs (Decidable (a.2 ≤ b.2))

instance : IsTotal (String × String) relLePair := ⟨fun a b => le_total a.2 b.2⟩

instance : IsTrans (String × String) relLePair := ⟨fun _ _ _ => le_trans⟩

/-! ### Python `dict` model

Insertion-ordered association lists with CPython update semantics. -/

/-- The keys of a dict, in insertion order. -/
def dkeys {β : Type} (d : List (String × β)) : List String :=
  d.map Prod.fst

/-- `d[k] = v`: update in place if `k` is present (keeping its position),
append otherwise. -/
def dinsert {β : Type} (d : List (String × β)) (k : String) (v : β) :
    List (String × β) :=
  if k ∈ dkeys d then d.map (fun p => if p.1 = k then (k, v) else p)
  else d ++ [(k, v)]

/-- `d.get(k)`. -/
def dlookup {β : Type} : List (String × β) → String → Option β
  | [], _ => none
  | p :: ps, k => if p.1 = k then some p.2 else dlookup ps k

/-- `del d[k]` (removes the binding, all other positions preserved). -/
def ddelete {β : Type} (d : List (String × β)) (k : String) :
    List (String × β) :=
  d.filter (fun p => decide (p.1 ≠ k))

/-- Insert a list of bindings left to right. -/
def dfold {β : Type} (init : List (String × β)) (entries : List (String × β)) :
    List (String × β) :=
  entries.foldl (fun d p => dinsert d p.1 p.2) init

/-- Python `{**a, **b}`: a fresh dict filled from `a` then from `b`. -/
def pyMerge {β : Type} (a b : List (String × β)) : List (String × β) :=
  dfold (dfold [] a) b

/-! ### oci.py — image config synthesis

`build_config_json` receives a base config parsed from JSON.  Only the keys
the function reads or writes are modelled; a JSON `null` value is identified
with an absent key (`none`), and remaining top-level keys of a pulled base
config (`rootfs`, `history`, ...) are carried through `dict.copy()` untouched
and are not modelled. -/

/-- The `config` sub-object of an OCI image config. -/
structure InnerConfig where
  Env : Option (List String) := none
  WorkingDir : Option String := none
  Entrypoint : Option (List String) := none
  Cmd : Option (List String) := none
  User : Option String := none
  Labels : Option (List (String × String)) := none
  ExposedPorts : Option (List String) := none
  deriving DecidableEq, Repr

/-- An OCI image config document (the fields `build_config_json` touches). -/
structure ImageConfig where
  architecture : Option String := none
  os : Option String := none
  config : InnerConfig := {}
  deriving DecidableEq, Repr

/-- Python truthiness of an optional list (`None` and `[]` are falsy). -/
def truthyList {α : Type} : Option (List α) → Bool
  | some (_ :: _) => true
  | _ => false

/-- Python truthiness of an optional string (`None` and `""` are falsy). -/
def truthyStr : Option String → Bool
  | some s => decide (s ≠ "")
  | none => false

/-- oci.py `is_distroless`: the base labels value for
`org.opencontainers.image.base.name` or `name` contains `"distroless"`
case-insensitively. -/
def is_distroless (c : ImageConfig) : Bool :=
  let labels := c.config.Labels.getD []
  strContainsSub (strLower ((dlookup labels "org.opencontainers.image.base.name").getD "")) "distroless"
    || strContainsSub (strLower ((dlookup labels "name").getD "")) "distroless"

/-- oci.py line 48: `entrypoint[0] in ['/bin/sh','/bin/bash','sh','bash']`
(together with the truthiness of `entrypoint` that guards it). -/
def entrypointHeadIsShell (ep : Option (List String)) : Bool :=
  match ep with
  | some (s :: _) => s = "/bin/sh" || s = "/bin/bash" || s = "sh" || s = "bash"
  | _ => false

/-- `kv.split('=', 1)` restricted to entries that contain `'='`
(the guard of the dict comprehension at oci.py line 41). -/
def parseKV (kv : String) : Option (String × String) :=
  (breakAtChar '=' kv.data).map (fun p => (⟨p.1⟩, ⟨p.2⟩))

/-- `f"{k}={v}"`. -/
def renderKV (p : String × String) : String := p.1 ++ "=" ++ p.2

/-- `{f"{p}/tcp": {} for p in exposed_ports}` — the keys of the
`ExposedPorts` dict, in dict insertion order. -/
def portsKeys (xp : List Nat) : List String :=
  dkeys (dfold ([] : List (String × Unit)) (xp.map (fun p => (toString p ++ "/tcp", ()))))

/-- The `KEY → VALUE` pairs of the base config's `Env` entries that contain
`'='` (the generator feeding the dict comprehension at oci.py line 41). -/
def parsedBaseEnv (base : ImageConfig) : List (String × String) :=
  (base.config.Env.getD []).filterMap parseKV

/-- The merged `Env` dict `{**base_env, **env}` computed at oci.py line 42. -/
def mergedEnvPairs (base : ImageConfig) (env : List (String × String)) :
    List (String × String) :=
  pyMerge (dfold [] (parsedBaseEnv base)) env

/-- oci.py lines 68-69: the unconditional `ExposedPorts` write at the end of
`build_config_json` (a write through `cfg["config"]`, hence on the shared
sub-object in the base-config branch). -/
def addExposedPorts (xp : List Nat) (c : InnerConfig) : InnerConfig :=
  if xp ≠ [] then { c with ExposedPorts := some (portsKeys xp) } else c

/-- oci.py lines 41-43: build the `base_env` dict from the current shared
dict's `Env`, merge the application env over it (`{**base_env, **env}`), and
write the rendered result back. -/
def mergeStepEnv (env : List (String × String)) (c : InnerConfig) : InnerConfig :=
  { c with Env := some ((pyMerge (dfold [] ((c.Env.getD []).filterMap parseKV)) env).map renderKV) }

/-- oci.py line 44: `cfg['config']['WorkingDir'] = working_dir or
base_config.get('config',{}).get('WorkingDir','/app')`. -/
def mergeStepWorkdir (working_dir : String) (c : InnerConfig) : InnerConfig :=
  { c with WorkingDir := some (if working_dir = "" then c.WorkingDir.getD "/app" else working_dir) }

/-- oci.py lines 46-54: the Entrypoint/Cmd merge with the distroless
demotion.  `base_entrypoint` is read from the shared dict just before this
block, i.e. it is `c.Entrypoint`; `is_distroless(base_config)` reads the
shared dict's `Labels`, untouched so far. -/
def mergeStepEntrypoint (entrypoint : Option (List String)) (base : ImageConfig)
    (c : InnerConfig) : InnerConfig :=
  if truthyList entrypoint then
    if is_distroless { base with config := c } && entrypointHeadIsShell entrypoint then
      if truthyList c.Entrypoint then { c with Cmd := entrypoint, Entrypoint := c.Entrypoint }
      else { c with Cmd := entrypoint }
    else { c with Entrypoint := entrypoint }
  else if truthyList c.Entrypoint then { c with Entrypoint := c.Entrypoint }
  else c

/-- oci.py lines 56-57: `if cmd: ... elif 'Cmd' in base_config.get('config',{})`.
The presence test and the re-read go through the shared dict, so after a
demotion they see (and re-assign) the just-written demoted Cmd. -/
def mergeStepCmd (cmd : Option (List String)) (c : InnerConfig) : InnerConfig :=
  if truthyList cmd then { c with Cmd := cmd }
  else if c.Cmd.isSome then { c with Cmd := c.Cmd }
  else c

/-- oci.py lines 58-59: User. -/
def mergeStepUser (user : Option String) (c : InnerConfig) : InnerConfig :=
  if truthyStr user then { c with User := user }
  else if c.User.isSome then { c with User := c.User }
  else c

/-- oci.py lines 60-62: Labels (`{**base_labels, **labels}` when the
application passed a non-empty labels dict). -/
def mergeStepLabels (labels : Option (List (String × String))) (c : InnerConfig) :
    InnerConfig :=
  if truthyList labels then
    { c with Labels := some (pyMerge (c.Labels.getD []) (labels.getD [])) }
  else if c.Labels.getD [] ≠ [] then { c with Labels := some (c.Labels.getD []) }
  else c

/-- The base-config branch of `build_config_json` (oci.py lines 39-62),
translated statement by statement.  `cfg = base_config.copy()` is a *shallow*
copy, so `cfg['config']` and `base_config['config']` are one dict: every read
of `base_config.get('config', {})` sees the writes made so far; each step
below transforms that shared dict. -/
def mergeInner (env : List (String × String)) (working_dir : String)
    (entrypoint : Option (List String))
    (labels : Option (List (String × String))) (user : Option String)
    (cmd : Option (List String)) (base : ImageConfig) : InnerConfig :=
  mergeStepLabels labels (mergeStepUser user (mergeStepCmd cmd
    (mergeStepEntrypoint entrypoint base
      (mergeStepWorkdir working_dir (mergeStepEnv env base.config)))))

/-- The fresh-config branch of `build_config_json` (oci.py lines 63-67). -/
def freshInner (env : List (String × String)) (working_dir : String)
    (entrypoint : Option (List String))
    (labels : Option (List (String × String))) (user : Option String)
    (cmd : Option (List String)) : InnerConfig :=
  let c0 : InnerConfig :=
    { Env := some (env.map renderKV), WorkingDir := some working_dir,
      Entrypoint := entrypoint }
  let c1 := if truthyList labels then { c0 with Labels := labels } else c0
  let c2 := if truthyStr user then { c1 with User := user } else c1
  if truthyList cmd then { c2 with Cmd := cmd } else c2

/-- oci.py `build_config_json`: build the OCI config document, merging over
`base_config` when one is given.  (A Python caller passing an *empty* dict
would take the fresh branch; `none` models `base_config=None`.) -/
def build_config_json (architecture os_name : String)
    (env : List (String × String)) (working_dir : String)
    (entrypoint : Option (List String)) (exposed_ports : List Nat)
    (labels : Option (List (String × String))) (user : Option String)
    (cmd : Option (List String)) (base_config : Option ImageConfig) :
    ImageConfig :=
  match base_config with
  | some base =>
    { architecture := base.architecture, os := base.os,
      config := addExposedPorts exposed_ports
        (mergeInner env working_dir entrypoint labels user cmd base) }
  | none =>
    { architecture := some architecture, os := some os_name,
      config := addExposedPorts exposed_ports
        (freshInner env working_dir entrypoint labels user cmd) }

/-- `build_config_json` together with the caller's view of its `base_config`
argument after the call returns.  `base_config.copy()` at oci.py line 40 is a
shallow copy: the `'config'` value of the copy and of the argument stay one
dict object, and every `cfg['config'][k] = v` in the function body (including
the final `ExposedPorts` write) mutates that shared dict.  The caller's
`base_config` therefore keeps its own top-level entries while its `'config'`
sub-object ends up being the merged one.  Returns
`(returned cfg, base_config as the caller sees it afterwards)`. -/
def build_config_json_post (env : List (String × String)) (working_dir : String)
    (entrypoint : Option (List String)) (exposed_ports : List Nat)
    (labels : Option (List (String × String))) (user : Option String)
    (cmd : Option (List String)) (base : ImageConfig) :
    ImageConfig × ImageConfig :=
  let sharedInner := addExposedPorts exposed_ports
    (mergeInner env working_dir entrypoint labels user cmd base)
  ({ architecture := base.architecture, os := base.os, config := sharedInner },
   { architecture := base.architecture, os := base.os, config := sharedInner })

/-! ### registry_client.py — reference parsing and the auth retry machine -/

/-- The first `/`-separated segment of a reference: `ref.split('/')[0]`. -/
def refFirstSeg (ref : String) : String :=
  ⟨(splitOnChar '/' ref.data).headD []⟩

/-- registry_client.py lines 219-225: split a reference that contains `'/'`
into `(registry, repo-with-optional-tag)`. -/
def refRegRepo (ref : String) : String × String :=
  if strContainsChar (refFirstSeg ref) '.' || strContainsChar (refFirstSeg ref) ':' then
    (refFirstSeg ref, ⟨joinWithChar '/' (splitOnChar '/' ref.data).tail⟩)
  else ("docker.io", ref)

/-- registry_client.py `parse_image_reference`: canonicalize an image
reference into `(registry, repository, tag)`. -/
def parse_image_reference (ref : String) : String × String × String :=
  if strContainsChar ref '/' = false then
    ("docker.io", "library/" ++ (⟨(splitOnChar ':' ref.data).headD []⟩ : String),
     if strContainsChar ref ':' then (⟨(splitOnChar ':' ref.data).getLastD []⟩ : String)
     else "latest")
  else
    if strContainsChar (refRegRepo ref).2 ':' then
      match breakAtLastChar ':' (refRegRepo ref).2.data with
      | some p => ((refRegRepo ref).1, ⟨p.1⟩, ⟨p.2⟩)
      | none => ((refRegRepo ref).1, (refRegRepo ref).2, "latest")
    else ((refRegRepo ref).1, (refRegRepo ref).2, "latest")

/-- The authentication-relevant state of a `RegistryClient` instance. -/
structure ClientState where
  auth_token : Option String := none
  bearer_token : Option String := none
  deriving DecidableEq, Repr

/-- One HTTP response as `_make_request` observes it: the status code and the
(already parsed) `Www-Authenticate` bearer challenge, `none` when the header
is absent or does not parse (`_parse_www_authenticate` returning `None`). -/
structure MResp where
  status : Nat
  challenge : Option (List (String × String)) := none
  deriving DecidableEq, Repr

/-- The outcome of `_make_request` for one logical request: the status
returned to the caller, the client state afterwards, how many bearer-token
exchanges (`_get_bearer_token` calls) were attempted, and how many HTTP
requests were issued. -/
structure ReqResult where
  status : Nat
  finalState : ClientState
  exchanges : Nat
  requests : Nat
  deriving DecidableEq, Repr

/-- registry_client.py `_make_request` with `retry_auth=False`: the 401
branch is disabled, so the response status is returned as is after a single
HTTP request. -/
def make_request_noretry (server : Nat → MResp) (st : ClientState) (i : Nat) :
    ReqResult :=
  { status := (server i).status, finalState := st, exchanges := 0, requests := 1 }

/-- registry_client.py `_make_request` with the default `retry_auth=True`,
split into the handling of the received response (`handle_response`) and the
wrapper issuing the request (`make_request`).  `server i` is the response to
the `i`-th HTTP request of the session; `getTok` is the result of
`_get_bearer_token` (itself a network call, hence an oracle; `none` models a
failed token exchange).  On a 401 with a parsed bearer challenge and no
cached bearer token, the token is exchanged and the request retried exactly
once via the `retry_auth=False` recursion at registry_client.py line 82. -/
def handle_response (server : Nat → MResp) (getTok : Option String)
    (st : ClientState) (i : Nat) (resp : MResp) : ReqResult :=
  if resp.status = 401 ∧ st.bearer_token = none then
    match resp.challenge with
    | some _ =>
      match getTok with
      | some tok =>
        { make_request_noretry server { st with bearer_token := some tok } (i + 1) with
          exchanges :=
            (make_request_noretry server { st with bearer_token := some tok } (i + 1)).exchanges + 1,
          requests :=
            (make_request_noretry server { st with bearer_token := some tok } (i + 1)).requests + 1 }
      | none => { status := 401, finalState := st, exchanges := 1, requests := 1 }
    | none => { status := 401, finalState := st, exchanges := 0, requests := 1 }
  else { status := resp.status, finalState := st, exchanges := 0, requests := 1 }

def make_request (server : Nat → MResp) (getTok : Option String)
    (st : ClientState) (i : Nat) : ReqResult :=
  handle_response server getTok st i (server i)

/-! ### builder.py — platform handling, base-image selection, app layer -/

/-- config.py `BuildConfig` (the exact dataclass field list; note there is
no `platform` and no `reproducible` field). -/
structure BuildConfig where
  tag : String := "local/test:latest"
  base_image : Option String := none
  context_dir : String := "."
  workdir : String := "/app"
  entrypoint : Option (List String) := none
  env : List (String × String) := []
  exposed_ports : List Nat := []
  include_paths : Option (List String) := none
  output_dir : String := "dist/image"
  use_cache : Bool := true
  cache_dir : Option String := none
  max_cache_size_mb : Nat := 5000
  labels : Option (List (String × String)) := none
  user : Option String := none
  cmd : Option (List String) := none
  include_deps : Bool := false
  requirements_file : String := "requirements.txt"
  deriving Repr

/-- builder.py line 52: the `(architecture, os)` pair `build()` hands to
`build_config_json` is the literal `("amd64", "linux")` for every
configuration — `BuildConfig` has no platform field and none is consulted. -/
def buildPlatformArgs (_c : BuildConfig) : String × String := ("amd64", "linux")

/-- Modelled from the spec: `parse_platform` (§4.G step 1, §8 scenario 2; the
function is missing from src/ — tests/test_platform.py imports it from
`pycontainer.builder`): split `"<os>/<arch>"` on `/` and require exactly two
non-empty segments; anything else is a ConfigError (modelled as `none`). -/
def parse_platform (s : String) : Option (String × String) :=
  match splitOnChar '/' s.data with
  | [a, b] => if a ≠ [] ∧ b ≠ [] then some (⟨a⟩, ⟨b⟩) else none
  | _ => none

/-- One entry of an image index's `manifests` list, with its optional
`platform` object. -/
structure ManifestDesc where
  digest : String
  platformArch : Option String := none
  platformOs : Option String := none
  deriving DecidableEq, Repr

/-- A pulled manifest document, as `_pull_base_image` reads it:
`mediaType`, the `manifests` list (`.get('manifests', [])`), and
`config.digest` (`.get('config', {}).get('digest')`). -/
structure ManifestDoc where
  mediaType : Option String := none
  manifests : List ManifestDesc := []
  configDigest : Option String := none
  deriving DecidableEq, Repr

/-- builder.py lines 96-100: the first index entry whose platform is
`amd64`/`linux` (the hardcoded literals in the source). -/
def findAmd64Linux : List ManifestDesc → Option ManifestDesc
  | [] => none
  | m :: ms =>
    if m.platformArch = some "amd64" ∧ m.platformOs = some "linux" then some m
    else findAmd64Linux ms

/-- builder.py lines 95-100: if the pulled manifest is an index, re-pull the
first matching entry by digest; when no entry matches, the loop falls
through and the *index document itself* remains the manifest the rest of
`_pull_base_image` works on.  `pull` is the network oracle for
`client.pull_manifest`. -/
def resolveBaseManifest (pull : String → ManifestDoc) (manifest : ManifestDoc) :
    ManifestDoc :=
  if manifest.mediaType = some "application/vnd.oci.image.index.v1+json" then
    match findAmd64Linux manifest.manifests with
    | some m => pull m.digest
    | none => manifest
  else manifest

/-- builder.py lines 102-104: `config_digest = manifest.get('config',{}).get('digest')`
followed by `config_digest.split(':', 1)[1]`.  When `config_digest` is `None`
(the case for an index document) the Python attribute access raises
`AttributeError`; the `Option` records whether that happens. -/
def baseConfigBlobName (doc : ManifestDoc) : Option String :=
  doc.configDigest.map hexPart

/-- One input file of the application layer, with the filesystem metadata a
tar entry would carry.  `content` is the file's byte sequence. -/
structure SrcFile where
  absPath : String
  rel : String
  content : List Nat
  mtime : Nat := 0
  uid : Nat := 0
  gid : Nat := 0
  uname : String := ""
  gname : String := ""
  deriving DecidableEq, Repr

/-- One entry of the emitted tar stream.  The tar byte stream written by
`tarfile` is a function of this entry sequence, so equal sequences give
byte-identical layer blobs (and hence equal layer digests). -/
structure TarEntry where
  arcname : String
  mtime : Nat
  uid : Nat
  gid : Nat
  uname : String
  gname : String
  content : List Nat
  deriving DecidableEq, Repr

/-- `sorted(files, key=lambda x: x[1].as_posix())` at builder.py line 207. -/
def relLeSrcFile (a b : SrcFile) : Prop := a.rel ≤ b.rel

instance : DecidableRel relLeSrcFile :=
  fun a b => inferInstanceAs (Decidable (a.rel ≤ b.rel))

instance : IsTotal SrcFile relLeSrcFile := ⟨fun a b => le_total a.rel b.rel⟩

instance : IsTrans SrcFile relLeSrcFile := ⟨fun _ _ _ => le_trans⟩

/-- builder.py lines 206-225, `_create_app_layer`'s tar emission: in
reproducible mode the files are sorted by in-archive relative path and every
entry gets `mtime=0`, `uid=gid=0`, `uname=gname="root"`; otherwise the
enumeration order and the host filesystem metadata are used as is
(`tar.add`).  The config's `reproducible` flag itself is missing from
src/config.py (tests/test_phase4.py and cli.py reference it; the spec states
the default is on) and is passed here as a parameter. -/
def create_app_layer_entries (workdir : String) (reproducible : Bool)
    (files : List SrcFile) : List TarEntry :=
  let files_sorted :=
    if reproducible then List.insertionSort relLeSrcFile files else files
  files_sorted.map (fun f =>
    if reproducible then
      { arcname := lstripSlash workdir ++ "/" ++ f.rel, mtime := 0, uid := 0,
        gid := 0, uname := "root", gname := "root", content := f.content }
    else
      { arcname := lstripSlash workdir ++ "/" ++ f.rel, mtime := f.mtime,
        uid := f.uid, gid := f.gid, uname := f.uname, gname := f.gname,
        content := f.content })

/-- builder.py lines 181-185, `_create_deps_layer`'s tar emission: the
dependency files are tarred in the order `find_dependencies` enumerates them
— no sorting — with plain `tar.add`, which records the host filesystem
metadata (mtime, owner) in each entry.  This happens also in reproducible
mode: the reproducible branch exists only in `_create_app_layer`. -/
def create_deps_layer_entries (workdir : String) (files : List SrcFile) :
    List TarEntry :=
  files.map (fun f =>
    { arcname := lstripSlash workdir ++ "/" ++ f.rel, mtime := f.mtime,
      uid := f.uid, gid := f.gid, uname := f.uname, gname := f.gname,
      content := f.content })

/-! ### cache.py — content-addressed layer cache

Timestamps are naturals (Python float seconds; only their order matters).
The `0.8` hysteresis factor (a Python float whose rounding is irrelevant at
these magnitudes) is modelled as the exact rational `4/5`, compared by
cross-multiplication.  The blobs directory is the list of
`(file name, byte size)` pairs present on disk; SHA-256 of the fingerprint
input is modelled by the input's canonical rendering itself (only its
function-ness is ever used). -/

/-- cache.py `CacheEntry`. -/
structure CacheEntry where
  digest : String
  size : Nat
  created : Nat
  last_used : Nat
  source_files : List String
  deriving DecidableEq, Repr

/-- The state of a `LayerCache`: the persisted index (a Python dict keyed by
fingerprint) and the contents of `blobs/sha256/` on disk. -/
structure LayerCache where
  enabled : Bool := true
  max_size_bytes : Nat := 5000 * 1024 * 1024
  index : List (String × CacheEntry) := []
  blobs : List (String × Nat) := []
  deriving DecidableEq, Repr

/-- cache.py `_compute_files_digest`: hash, for each `(abs, rel)` pair sorted
by `rel`, the rendering of `rel` followed by the decimal size and
truncated-second mtime of `abs` (files that do not exist contribute only
their `rel`).  `stat` is the filesystem oracle: `abs path ↦ (st_size,
int(st_mtime))`, `none` when the path does not exist. -/
def compute_files_digest (stat : String → Option (Nat × Nat))
    (files : List (String × String)) : String :=
  "sha256:" ++ (List.insertionSort relLePair files).foldl (fun acc f =>
    acc ++ f.2 ++ (match stat f.1 with
      | some (sz, mt) => toString sz ++ toString mt
      | none => "")) ""

/-- cache.py `get_layer`: return `(digest, blob file name)` on a fingerprint
hit whose blob is still on disk (touching its `last_used`), repair a stale
entry by deleting it, `none` otherwise.  Returns the result together with
the cache state afterwards. -/
def get_layer (c : LayerCache) (stat : String → Option (Nat × Nat))
    (files : List (String × String)) (now : Nat) :
    Option (String × String) × LayerCache :=
  if c.enabled = false then (none, c)
  else
    match dlookup c.index (compute_files_digest stat files) with
    | some entry =>
      if hexPart entry.digest ∈ dkeys c.blobs then
        (some (entry.digest, hexPart entry.digest),
         { c with index := dinsert c.index (compute_files_digest stat files)
                    { entry with last_used := now } })
      else (none, { c with index := ddelete c.index (compute_files_digest stat files) })
    | none => (none, c)

/-- The sum of the sizes recorded in the index
(`sum(e.size for e in self.index.values())`). -/
def sumSizes (index : List (String × CacheEntry)) : Nat :=
  (index.map (fun p => p.2.size)).sum

/-- cache.py lines 122-133, the eviction loop over the index entries sorted
by ascending `last_used`: before each entry, stop if the running total is
within 80% of the limit, otherwise drop the entry (deleting its blob) and
subtract its size.  Returns `(dropped, kept)`. -/
def evictLoop (maxB : Nat) : Nat → List (String × CacheEntry) →
    List (String × CacheEntry) × List (String × CacheEntry)
  | _, [] => ([], [])
  | total, x :: rest =>
    if total * 5 ≤ maxB * 4 then ([], x :: rest)
    else
      (x :: (evictLoop maxB (total - x.2.size) rest).1,
       (evictLoop maxB (total - x.2.size) rest).2)

/-- `sorted(self.index.items(), key=lambda x: x[1].last_used)` at
cache.py line 122. -/
def relLeUsed (a b : String × CacheEntry) : Prop :=
  a.2.last_used ≤ b.2.last_used

instance : DecidableRel relLeUsed :=
  fun a b => inferInstanceAs (Decidable (a.2.last_used ≤ b.2.last_used))

instance : IsTotal (String × CacheEntry) relLeUsed :=
  ⟨fun a b => le_total a.2.last_used b.2.last_used⟩

instance : IsTrans (String × CacheEntry) relLeUsed := ⟨fun _ _ _ => le_trans⟩

/-- The entries the eviction loop drops, given the current cache state. -/
def evictedPairs (c : LayerCache) : List (String × CacheEntry) :=
  (evictLoop c.max_size_bytes (sumSizes c.index)
    (List.insertionSort relLeUsed c.index)).1

/-- cache.py `_evict_if_needed`: when the recorded total exceeds
`max_size_bytes`, run the LRU loop; the surviving index keeps its original
dict order, and each dropped entry's blob file is unlinked. -/
def evict_if_needed (c : LayerCache) : LayerCache :=
  if sumSizes c.index ≤ c.max_size_bytes then c
  else
    { c with
      index := c.index.filter (fun p => decide (p.1 ∉ dkeys (evictedPairs c))),
      blobs := c.blobs.filter (fun b =>
        decide (b.1 ∉ (evictedPairs c).map (fun p => hexPart p.2.digest))) }

/-- cache.py lines 97-98: the blobs directory after
`if not blob_path.exists(): shutil.copy2(layer_path, blob_path)`. -/
def storedBlobs (c : LayerCache) (hex : String) (layerSize : Nat) :
    List (String × Nat) :=
  if hex ∈ dkeys c.blobs then c.blobs else c.blobs ++ [(hex, layerSize)]

/-- cache.py lines 100-107: the recorded `CacheEntry`; its `size` is
`blob_path.stat().st_size` after the copy (the existing blob's size when the
copy was skipped). -/
def storedEntry (c : LayerCache) (files : List (String × String))
    (digest : String) (layerSize : Nat) (now : Nat) : CacheEntry :=
  { digest := digest,
    size := (dlookup (storedBlobs c (hexPart digest) layerSize) (hexPart digest)).getD 0,
    created := now, last_used := now, source_files := files.map Prod.snd }

/-- cache.py `store_layer` up to (but not including) the final
`_evict_if_needed` call: copy the blob into `blobs/sha256/` unless already
present, then record the entry under the file-list fingerprint. -/
def store_layer_pre (c : LayerCache) (stat : String → Option (Nat × Nat))
    (files : List (String × String)) (digest : String) (layerSize : Nat)
    (now : Nat) : LayerCache :=
  { c with
    index := dinsert c.index (compute_files_digest stat files)
      (storedEntry c files digest layerSize now),
    blobs := storedBlobs c (hexPart digest) layerSize }

/-- cache.py `store_layer`: record the layer, then run eviction. -/
def store_layer (c : LayerCache) (stat : String → Option (Nat × Nat))
    (files : List (String × String)) (digest : String) (layerSize : Nat)
    (now : Nat) : LayerCache :=
  if c.enabled = false then c
  else evict_if_needed (store_layer_pre c stat files digest layerSize now)

/-! ### Concrete fixtures used by witnesses and counterexamples -/

/-- A distroless base config: label `name=gcr.io/distroless/python3`, with
its own `Entrypoint` and `Cmd`. -/
def distrolessBase : ImageConfig :=
  { config := { Entrypoint := some ["/usr/bin/python3"], Cmd := some ["--help"],
                Labels := some [("name", "gcr.io/distroless/python3")] } }

/-- The same distroless base without a `Cmd` of its own. -/
def distrolessBaseNoCmd : ImageConfig :=
  { config := { Entrypoint := some ["/usr/bin/python3"],
                Labels := some [("name", "gcr.io/distroless/python3")] } }

/-- An empty enabled cache with a 10-byte size limit. -/
def smallCache : LayerCache :=
  { enabled := true, max_size_bytes := 10, index := [], blobs := [] }

/-- An empty enabled cache with a 1000-byte size limit. -/
def bigCache : LayerCache :=
  { enabled := true, max_size_bytes := 1000, index := [], blobs := [] }

/-- Two 80-byte cache entries with increasing `last_used`. -/
def c9e1 : CacheEntry :=
  { digest := "sha256:aa", size := 80, created := 0, last_used := 1, source_files := [] }

def c9e2 : CacheEntry :=
  { digest := "sha256:bb", size := 80, created := 0, last_used := 2, source_files := [] }

/-- A cache over its 100-byte limit (two 80-byte entries). -/
def c9cache : LayerCache :=
  { enabled := true, max_size_bytes := 100,
    index := [("f1", c9e1), ("f2", c9e2)], blobs := [("aa", 80), ("bb", 80)] }

/-- A base config whose `Env` repeats the key `K`. -/
def c4base : ImageConfig := { config := { Env := some ["K=1", "K=2"] } }

/-- The base config of spec scenario 3. -/
def c4scenarioBase : ImageConfig :=
  { config := { Env := some ["PATH=/usr/bin", "PYTHON=3.11"],
                WorkingDir := some "/", Entrypoint := some ["/usr/bin/python"] } }

/-- Two input files as one build run enumerates them. -/
def c1files1 : List SrcFile :=
  [{ absPath := "/ctx/b.py", rel := "b.py", content := [1, 2], mtime := 100,
     uid := 5, gid := 5, uname := "u", gname := "g" },
   { absPath := "/ctx/a.py", rel := "a.py", content := [3], mtime := 200,
     uid := 7, gid := 7, uname := "v", gname := "h" }]

/-- The same two files (byte-identical contents, same relative paths) as a
second run enumerates them: opposite order, different host metadata. -/
def c1files2 : List SrcFile :=
  [{ absPath := "/mnt/ctx/a.py", rel := "a.py", content := [3], mtime := 999,
     uid := 0, gid := 0, uname := "x", gname := "y" },
   { absPath := "/mnt/ctx/b.py", rel := "b.py", content := [1, 2], mtime := 0,
     uid := 1, gid := 1, uname := "w", gname := "z" }]

/-! ## Theorems -/

/-! ### Generic list and dict lemmas -/

theorem splitOnCharAux_no_sep {c : Char} :
    ∀ (l acc : List Char), (∀ x ∈ l, x ≠ c) →
      splitOnCharAux c l acc = [acc.reverse ++ l] := by
  intro l
  induction l with
  | nil => intro acc _; simp [splitOnCharAux]
  | cons x xs ih =>
    intro acc h
    have hx : x ≠ c := h x (List.mem_cons_self _ _)
    simp only [splitOnCharAux, if_neg hx]
    rw [ih (x :: acc) (fun y hy => h y (List.mem_cons_of_mem _ hy))]
    simp

theorem splitOnChar_no_sep {c : Char} {s : String}
    (h : strContainsChar s c = false) : splitOnChar c s.data = [s.data] := by
  have h' : ∀ x ∈ s.data, x ≠ c := by
    intro x hx hxc
    subst hxc
    have : s.data.any (fun y => decide (y = x)) = true :=
      List.any_eq_true.mpr ⟨x, hx, by simp⟩
    rw [strContainsChar, this] at h
    exact Bool.true_eq_false.mp h
  simpa [splitOnChar] using splitOnCharAux_no_sep s.data [] h'

/-! ### C7 — registry client: at most one re-authentication per request -/

/-- C7: for every HTTP request issued through `_make_request`, at most one
bearer-token exchange is attempted; when a 401 carries a parseable challenge
and the exchange succeeds, the original request is retried exactly once with
the bearer token cached, and the retry's status (a 401 included) is returned
to the caller with no further exchange or retry. -/
theorem make_request_single_reauth (server : Nat → MResp) (getTok : Option String)
    (st : ClientState) (i : Nat) :
    (make_request server getTok st i).exchanges ≤ 1 ∧
    (∀ ch tok, st.bearer_token = none →
      server i = { status := 401, challenge := some ch } →
      getTok = some tok →
      make_request server getTok st i =
        { status := (server (i + 1)).status,
          finalState := { st with bearer_token := some tok },
          exchanges := 1, requests := 2 }) := by
  constructor
  · unfold make_request handle_response make_request_noretry
    by_cases hcond : ((server i).status = 401 ∧ st.bearer_token = none)
    · rw [if_pos hcond]
      cases hch : (server i).challenge with
      | none => simp
      | some ch =>
        cases getTok with
        | none => simp
        | some tok => simp
    · rw [if_neg hcond]
      simp
  · intro ch tok hb hresp htok
    unfold make_request handle_response make_request_noretry
    rw [hresp, htok]
    simp [hb]

/-- Witness for `make_request_single_reauth`: a server that answers 401 with
a challenge a first time and 401 again on the retry; the token exchange
succeeds, and the caller gets the second 401 after exactly one exchange and
two requests. -/
theorem make_request_single_reauth_witness :
    make_request
      (fun j => if j = 0 then { status := 401, challenge := some [("realm", "r")] }
                else { status := 401 })
      (some "tok") {} 0 =
      { status := 401, finalState := { bearer_token := some "tok" },
        exchanges := 1, requests := 2 } := by
  have h := (make_request_single_reauth
    (fun j => if j = 0 then { status := 401, challenge := some [("realm", "r")] }
              else { status := 401 })
    (some "tok") {} 0).2 [("realm", "r")] "tok" rfl (by simp) rfl
  simpa using h

/-! ### C3 — no-match index selection falls through with the index -/

/-- C3: when the pulled base manifest is an OCI index none of whose entries
matches the (hardcoded) `amd64`/`linux` platform, `_pull_base_image` does not
fail with a platform-mismatch error: the selection loop falls through, the
index document itself remains the working manifest, and the subsequent
`config_digest.split(':', 1)[1]` then blows up with `AttributeError` because
`manifest.get('config', {}).get('digest')` is `None` on an index. -/
theorem resolveBaseManifest_no_match_keeps_index :
    (∀ pull : String → ManifestDoc,
      resolveBaseManifest pull
        { mediaType := some "application/vnd.oci.image.index.v1+json",
          manifests := [{ digest := "sha256:aaa", platformArch := some "arm64",
                          platformOs := some "linux" }] } =
        { mediaType := some "application/vnd.oci.image.index.v1+json",
          manifests := [{ digest := "sha256:aaa", platformArch := some "arm64",
                          platformOs := some "linux" }] }) ∧
    baseConfigBlobName
      { mediaType := some "application/vnd.oci.image.index.v1+json",
        manifests := [{ digest := "sha256:aaa", platformArch := some "arm64",
                        platformOs := some "linux" }] } = none := by
  constructor
  · intro pull
    rfl
  · rfl

theorem dlookup_append_of_not_mem {β : Type} {d : List (String × β)} {k : String}
    (h : k ∉ dkeys d) (e : List (String × β)) :
    dlookup (d ++ e) k = dlookup e k := by
  induction d with
  | nil => rfl
  | cons p ps ih =>
    have hp : p.1 ≠ k := by
      intro hpk
      exact h (by rw [← hpk]; exact List.mem_cons_self _ _)
    have hps : k ∉ dkeys ps := fun hmem => h (List.mem_cons_of_mem _ hmem)
    simpa [dlookup, hp] using ih hps

theorem dlookup_map_update {β : Type} (v : β) :
    ∀ (d : List (String × β)) (k : String), k ∈ dkeys d →
      dlookup (d.map (fun p => if p.1 = k then (k, v) else p)) k = some v := by
  intro d
  induction d with
  | nil => intro k h; cases h
  | cons p ps ih =>
    intro k h
    by_cases hp : p.1 = k
    · simp [dlookup, hp]
    · have hps : k ∈ dkeys ps := by
        rcases List.mem_cons.mp h with h' | h'
        · exact absurd h'.symm hp
        · exact h'
      simpa [dlookup, hp] using ih k hps

theorem dlookup_dinsert_self {β : Type} (d : List (String × β)) (k : String)
    (v : β) : dlookup (dinsert d k v) k = some v := by
  unfold dinsert
  by_cases hk : k ∈ dkeys d
  · rw [if_pos hk]
    exact dlookup_map_update v d k hk
  · rw [if_neg hk, dlookup_append_of_not_mem hk]
    simp [dlookup]

theorem dlookup_eq_none_of_not_mem {β : Type} :
    ∀ (d : List (String × β)) (k : String), k ∉ dkeys d → dlookup d k = none := by
  intro d
  induction d with
  | nil => intro k _; rfl
  | cons p ps ih =>
    intro k h
    have hp : p.1 ≠ k := fun hpk => h (by rw [← hpk]; exact List.mem_cons_self _ _)
    simpa [dlookup, hp] using ih k (fun hmem => h (List.mem_cons_of_mem _ hmem))

theorem dlookup_mem {β : Type} :
    ∀ (d : List (String × β)) (k : String) (v : β),
      dlookup d k = some v → (k, v) ∈ d := by
  intro d
  induction d with
  | nil => intro k v h; cases h
  | cons p ps ih =>
    intro k v h
    by_cases hp : p.1 = k
    · rw [dlookup, if_pos hp] at h
      have : (k, v) = p := by
        rw [← hp]
        cases h
        rfl
      rw [this]
      exact List.mem_cons_self _ _
    · rw [dlookup, if_neg hp] at h
      exact List.mem_cons_of_mem _ (ih k v h)

theorem dkeys_dinsert_of_mem {β : Type} {d : List (String × β)} {k : String}
    (v : β) (h : k ∈ dkeys d) : dkeys (dinsert d k v) = dkeys d := by
  unfold dinsert
  rw [if_pos h]
  unfold dkeys
  rw [List.map_map]
  apply List.map_congr_left
  intro p _
  by_cases hp : p.1 = k
  · simp [hp]
  · simp [hp]

theorem dkeys_dinsert_of_not_mem {β : Type} {d : List (String × β)} {k : String}
    (v : β) (h : k ∉ dkeys d) : dkeys (dinsert d k v) = dkeys d ++ [k] := by
  unfold dinsert
  rw [if_neg h]
  simp [dkeys]

theorem nodup_dkeys_dinsert {β : Type} {d : List (String × β)} (k : String)
    (v : β) (h : (dkeys d).Nodup) : (dkeys (dinsert d k v)).Nodup := by
  by_cases hk : k ∈ dkeys d
  · rw [dkeys_dinsert_of_mem v hk]
    exact h
  · rw [dkeys_dinsert_of_not_mem v hk]
    exact List.nodup_append.mpr ⟨h, List.nodup_singleton k,
      fun a ha hb => hk (by rwa [List.mem_singleton.mp hb] at ha)⟩

theorem nodup_dkeys_dfold {β : Type} :
    ∀ (entries d : List (String × β)), (dkeys d).Nodup →
      (dkeys (dfold d entries)).Nodup := by
  intro entries
  induction entries with
  | nil => intro d hd; exact hd
  | cons e es ih =>
    intro d hd
    exact ih (dinsert d e.1 e.2) (nodup_dkeys_dinsert e.1 e.2 hd)

/-- The structure of a dict after bulk insertion: keys already present keep
their position and take the (last) inserted value; fresh keys are appended
in insertion order. -/
theorem dfold_eq {β : Type} :
    ∀ (entries d : List (String × β)), (dkeys d).Nodup → (dkeys entries).Nodup →
      dfold d entries
        = d.map (fun p => (p.1, (dlookup entries p.1).getD p.2))
          ++ entries.filter (fun q => decide (q.1 ∉ dkeys d)) := by
  intro entries
  induction entries with
  | nil =>
    intro d _ _
    show d = d.map (fun p => (p.1, (dlookup [] p.1).getD p.2)) ++ List.filter _ []
    simp [dlookup]
  | cons e es ih =>
    intro d hd hes
    have he1 : e.1 ∉ dkeys es := (List.nodup_cons.mp hes).1
    have hes' : (dkeys es).Nodup := (List.nodup_cons.mp hes).2
    have hle : dlookup es e.1 = none := dlookup_eq_none_of_not_mem es e.1 he1
    show dfold (dinsert d e.1 e.2) es = _
    by_cases hk : e.1 ∈ dkeys d
    · rw [ih (dinsert d e.1 e.2) (nodup_dkeys_dinsert e.1 e.2 hd) hes',
        dkeys_dinsert_of_mem e.2 hk]
      unfold dinsert
      rw [if_pos hk, List.map_map]
      have hmap : ∀ p : String × β,
          ((fun p => (p.1, (dlookup es p.1).getD p.2)) ∘
            (fun p => if p.1 = e.1 then (e.1, e.2) else p)) p
          = (p.1, (dlookup (e :: es) p.1).getD p.2) := by
        intro p
        by_cases hp : p.1 = e.1
        · simp only [Function.comp, if_pos hp, hle, dlookup]
          rw [if_pos hp.symm, hp]
          rfl
        · simp only [Function.comp, if_neg hp, dlookup]
          rw [if_neg (fun habs => hp habs.symm)]
      rw [List.map_congr_left (fun p _ => hmap p),
        List.filter_cons_of_neg (by simpa using hk)]
    · rw [ih (dinsert d e.1 e.2) (nodup_dkeys_dinsert e.1 e.2 hd) hes',
        dkeys_dinsert_of_not_mem e.2 hk]
      unfold dinsert
      rw [if_neg hk, List.map_append]
      have hmape : [(e.1, e.2)].map (fun p => (p.1, (dlookup es p.1).getD p.2))
          = [e] := by
        simp [hle]
      have hmapd : d.map (fun p => (p.1, (dlookup es p.1).getD p.2))
          = d.map (fun p => (p.1, (dlookup (e :: es) p.1).getD p.2)) := by
        apply List.map_congr_left
        intro p hp
        have hp1 : p.1 ≠ e.1 :=
          fun habs => hk (habs ▸ List.mem_map_of_mem Prod.fst hp)
        simp only [dlookup]
        rw [if_neg (fun habs => hp1 habs.symm)]
      have hfes : es.filter (fun q => decide (q.1 ∉ dkeys d ++ [e.1]))
          = es.filter (fun q => decide (q.1 ∉ dkeys d)) := by
        apply List.filter_congr
        intro q hq
        have hq1 : q.1 ≠ e.1 :=
          fun habs => he1 (habs ▸ List.mem_map_of_mem Prod.fst hq)
        simp [List.mem_append, hq1]
      rw [hmape, hmapd, hfes,
        List.filter_cons_of_pos (by simpa using hk), List.append_assoc]
      rfl

theorem dfold_nil_of_nodup {β : Type} (l : List (String × β))
    (h : (dkeys l).Nodup) : dfold [] l = l := by
  rw [dfold_eq l [] (by simp [dkeys]) h]
  simp [dkeys]

theorem countP_key_eq_one {β : Type} :
    ∀ (l : List (String × β)), (dkeys l).Nodup →
      ∀ (k : String) (v : β), (k, v) ∈ l →
        l.countP (fun p => decide (p.1 = k)) = 1 := by
  intro l
  induction l with
  | nil => intro _ k v h; cases h
  | cons a t ih =>
    intro hnd k v h
    have ha : a.1 ∉ dkeys t := (List.nodup_cons.mp hnd).1
    have hnd' : (dkeys t).Nodup := (List.nodup_cons.mp hnd).2
    rcases List.mem_cons.mp h with h' | h'
    · rw [List.countP_cons_of_pos _ _ (by rw [← h']; simp)]
      have : t.countP (fun p => decide (p.1 = k)) = 0 := by
        apply List.countP_eq_zero.mpr
        intro p hp
        simp only [decide_eq_true_eq]
        intro habs
        apply ha
        have hak : a.1 = k := by rw [← h']
        rw [hak, ← habs]
        exact List.mem_map_of_mem Prod.fst hp
      rw [this]
    · have hk : a.1 ≠ k := by
        intro habs
        exact ha (habs ▸ List.mem_map_of_mem Prod.fst h')
      rw [List.countP_cons_of_neg _ _ (by simpa using hk)]
      exact ih hnd' k v h'

/-- Two sorted lists of keyed pairs that are permutations of each other and
have pairwise-distinct keys are equal. -/
theorem sorted_nodup_fst_perm_eq {γ β : Type} [LinearOrder γ] :
    ∀ (l₁ l₂ : List (γ × β)), l₁.Perm l₂ →
      l₁.Pairwise (fun a b => a.1 ≤ b.1) →
      l₂.Pairwise (fun a b => a.1 ≤ b.1) →
      (l₁.map Prod.fst).Nodup → l₁ = l₂ := by
  intro l₁
  induction l₁ with
  | nil =>
    intro l₂ hperm _ _ _
    exact (List.Perm.eq_nil hperm.symm).symm
  | cons a t ih =>
    intro l₂ hperm hs₁ hs₂ hnd
    have ha2 : a ∈ l₂ := hperm.mem_iff.mp (List.mem_cons_self _ _)
    cases l₂ with
    | nil => cases ha2
    | cons b t₂ =>
      have hb1 : b ∈ a :: t := hperm.mem_iff.mpr (List.mem_cons_self _ _)
      have hab : a = b := by
        rcases List.mem_cons.mp hb1 with h | hbt
        · exact h.symm
        · rcases List.mem_cons.mp ha2 with h | hat2
          · exact h
          · exfalso
            have h1 : a.1 ≤ b.1 := (List.pairwise_cons.mp hs₁).1 b hbt
            have h2 : b.1 ≤ a.1 := (List.pairwise_cons.mp hs₂).1 a hat2
            have hkey : a.1 = b.1 := le_antisymm h1 h2
            have hnda : a.1 ∉ t.map Prod.fst := (List.nodup_cons.mp hnd).1
            exact hnda (hkey ▸ List.mem_map_of_mem Prod.fst hbt)
      subst hab
      rw [ih t₂ hperm.cons_inv (List.pairwise_cons.mp hs₁).2
        (List.pairwise_cons.mp hs₂).2 (List.nodup_cons.mp hnd).2]

/-! ### Field-preservation lemmas for the config-merge steps -/

theorem addExposedPorts_Cmd (xp : List Nat) (c : InnerConfig) :
    (addExposedPorts xp c).Cmd = c.Cmd := by
  unfold addExposedPorts
  split <;> rfl

theorem addExposedPorts_Entrypoint (xp : List Nat) (c : InnerConfig) :
    (addExposedPorts xp c).Entrypoint = c.Entrypoint := by
  unfold addExposedPorts
  split <;> rfl

theorem addExposedPorts_Env (xp : List Nat) (c : InnerConfig) :
    (addExposedPorts xp c).Env = c.Env := by
  unfold addExposedPorts
  split <;> rfl

theorem mergeStepCmd_Entrypoint (cm : Option (List String)) (c : InnerConfig) :
    (mergeStepCmd cm c).Entrypoint = c.Entrypoint := by
  unfold mergeStepCmd
  split
  · rfl
  · split <;> rfl

theorem mergeStepCmd_Env (cm : Option (List String)) (c : InnerConfig) :
    (mergeStepCmd cm c).Env = c.Env := by
  unfold mergeStepCmd
  split
  · rfl
  · split <;> rfl

theorem mergeStepUser_Cmd (us : Option String) (c : InnerConfig) :
    (mergeStepUser us c).Cmd = c.Cmd := by
  unfold mergeStepUser
  split
  · rfl
  · split <;> rfl

theorem mergeStepUser_Entrypoint (us : Option String) (c : InnerConfig) :
    (mergeStepUser us c).Entrypoint = c.Entrypoint := by
  unfold mergeStepUser
  split
  · rfl
  · split <;> rfl

theorem mergeStepUser_Env (us : Option String) (c : InnerConfig) :
    (mergeStepUser us c).Env = c.Env := by
  unfold mergeStepUser
  split
  · rfl
  · split <;> rfl

theorem mergeStepLabels_Cmd (lb : Option (List (String × String))) (c : InnerConfig) :
    (mergeStepLabels lb c).Cmd = c.Cmd := by
  unfold mergeStepLabels
  split
  · rfl
  · split <;> rfl

theorem mergeStepLabels_Entrypoint (lb : Option (List (String × String))) (c : InnerConfig) :
    (mergeStepLabels lb c).Entrypoint = c.Entrypoint := by
  unfold mergeStepLabels
  split
  · rfl
  · split <;> rfl

theorem mergeStepLabels_Env (lb : Option (List (String × String))) (c : InnerConfig) :
    (mergeStepLabels lb c).Env = c.Env := by
  unfold mergeStepLabels
  split
  · rfl
  · split <;> rfl

theorem mergeStepEntrypoint_Env (ep : Option (List String)) (base : ImageConfig)
    (c : InnerConfig) : (mergeStepEntrypoint ep base c).Env = c.Env := by
  unfold mergeStepEntrypoint
  split
  · split
    · split <;> rfl
    · rfl
  · split <;> rfl

/-- Under the demotion conditions (distroless base as the labels in the
shared dict witness it, shell argv[0]), the Entrypoint/Cmd block writes the
application entrypoint to `Cmd` and leaves `Entrypoint` at the base value. -/
theorem mergeStepEntrypoint_demotion (s : String) (rest : List String)
    (base : ImageConfig) (c : InnerConfig)
    (hdist : is_distroless { base with config := c } = true)
    (hshell : entrypointHeadIsShell (some (s :: rest)) = true) :
    (mergeStepEntrypoint (some (s :: rest)) base c).Cmd = some (s :: rest) ∧
    (mergeStepEntrypoint (some (s :: rest)) base c).Entrypoint = c.Entrypoint := by
  unfold mergeStepEntrypoint
  rw [if_pos (show truthyList (some (s :: rest)) = true from rfl),
    if_pos (by rw [hdist, hshell]; rfl)]
  split <;> exact ⟨rfl, rfl⟩

/-! ### C6 — image reference canonicalization -/

/-- C6: `parse_image_reference` canonicalizes as specified — a bare name
(no `/`, no `:`) maps to `(docker.io, library/<name>, latest)`; for a
reference with a path, the first `/`-separated segment becomes the registry
host iff it contains `.` or `:`; a missing tag (no `:` in the repository
part) defaults to `latest`; and the spec's concrete examples hold. -/
theorem parse_image_reference_canonicalizes :
    (∀ ref : String, strContainsChar ref '/' = false → strContainsChar ref ':' = false →
      parse_image_reference ref = ("docker.io", "library/" ++ ref, "latest")) ∧
    (∀ ref : String, strContainsChar ref '/' = true →
      ((parse_image_reference ref).1 = refFirstSeg ref ↔
        (strContainsChar (refFirstSeg ref) '.' || strContainsChar (refFirstSeg ref) ':') = true)) ∧
    (∀ ref : String, strContainsChar ref '/' = true →
      strContainsChar (refRegRepo ref).2 ':' = false →
      (parse_image_reference ref).2.2 = "latest") ∧
    parse_image_reference "alpine" = ("docker.io", "library/alpine", "latest") ∧
    parse_image_reference "localhost:5000/test" = ("localhost:5000", "test", "latest") ∧
    parse_image_reference "ghcr.io/user/app:v1" = ("ghcr.io", "user/app", "v1") := by
  refine ⟨?_, ?_, ?_, ?_, ?_, ?_⟩
  · intro ref h1 h2
    unfold parse_image_reference
    rw [if_pos h1, splitOnChar_no_sep h2, if_neg (by simp [h2])]
    rfl
  · intro ref h1
    have hp1 : (parse_image_reference ref).1 = (refRegRepo ref).1 := by
      unfold parse_image_reference
      rw [if_neg (by simp [h1])]
      split
      · split
        · rfl
        · rfl
      · rfl
    by_cases hc : (strContainsChar (refFirstSeg ref) '.'
        || strContainsChar (refFirstSeg ref) ':') = true
    · have hreg : (refRegRepo ref).1 = refFirstSeg ref := by
        unfold refRegRepo
        rw [if_pos hc]
      rw [hp1, hreg]
      simp [hc]
    · have hreg : (refRegRepo ref).1 = "docker.io" := by
        unfold refRegRepo
        rw [if_neg hc]
      rw [hp1, hreg]
      constructor
      · intro hfirst
        rw [← hfirst] at hc
        exact absurd (by decide) hc
      · intro habs
        exact absurd habs hc
  · intro ref h1 h2
    unfold parse_image_reference
    rw [if_neg (by simp [h1]), if_neg (by simp [h2])]
  · rfl
  · rfl
  · rfl

/-- Witness for `parse_image_reference_canonicalizes`: its bare-name clause
instantiated at `"alpine"`. -/
theorem parse_image_reference_canonicalizes_witness :
    parse_image_reference "alpine" = ("docker.io", "library/" ++ "alpine", "latest") :=
  parse_image_reference_canonicalizes.1 "alpine" rfl rfl

/-! ### C5 — distroless demotion -/

/-- C5 (amended): if the base config is detected as distroless and the
application entrypoint's argv[0] is one of `sh`, `bash`, `/bin/sh`,
`/bin/bash`, **and the application `cmd` is unset**, then the merged config's
`Cmd` is the application entrypoint and its `Entrypoint` is the base
config's.  (The base's own `Cmd` need not be absent: the `elif 'Cmd' in
base_config...` re-read at oci.py line 57 goes through the shared sub-object
and sees the freshly demoted value.) -/
theorem build_config_json_distroless_demotion (a o : String)
    (env : List (String × String)) (wd : String) (s : String)
    (rest : List String) (xp : List Nat) (lb : Option (List (String × String)))
    (us : Option String) (cm : Option (List String)) (base : ImageConfig)
    (hdist : is_distroless base = true)
    (hshell : s = "/bin/sh" ∨ s = "/bin/bash" ∨ s = "sh" ∨ s = "bash")
    (hcmd : truthyList cm = false) :
    (build_config_json a o env wd (some (s :: rest)) xp lb us cm (some base)).config.Cmd
        = some (s :: rest) ∧
    (build_config_json a o env wd (some (s :: rest)) xp lb us cm (some base)).config.Entrypoint
        = base.config.Entrypoint := by
  have hconf : (build_config_json a o env wd (some (s :: rest)) xp lb us cm (some base)).config
      = addExposedPorts xp (mergeInner env wd (some (s :: rest)) lb us cm base) := rfl
  have hshell2 : entrypointHeadIsShell (some (s :: rest)) = true := by
    rcases hshell with h | h | h | h <;> simp [entrypointHeadIsShell, h]
  have hdem := mergeStepEntrypoint_demotion s rest base
    (mergeStepWorkdir wd (mergeStepEnv env base.config)) hdist hshell2
  have hc3Cmd : (mergeStepCmd cm (mergeStepEntrypoint (some (s :: rest)) base
      (mergeStepWorkdir wd (mergeStepEnv env base.config)))).Cmd = some (s :: rest) := by
    unfold mergeStepCmd
    rw [if_neg (by simp [hcmd]), if_pos (by rw [hdem.1]; rfl)]
    exact hdem.1
  constructor
  · rw [hconf, addExposedPorts_Cmd]
    unfold mergeInner
    rw [mergeStepLabels_Cmd, mergeStepUser_Cmd]
    exact hc3Cmd
  · rw [hconf, addExposedPorts_Entrypoint]
    unfold mergeInner
    rw [mergeStepLabels_Entrypoint, mergeStepUser_Entrypoint, mergeStepCmd_Entrypoint,
      hdem.2]
    rfl

/-- Witness for `build_config_json_distroless_demotion`: a distroless base
(label `name=gcr.io/distroless/python3`) with its own Entrypoint *and* Cmd,
and a shell application entrypoint; the merged config demotes as claimed. -/
theorem build_config_json_distroless_demotion_witness :
    is_distroless distrolessBase = true ∧
    (build_config_json "amd64" "linux" [] "/app" (some ["sh", "-c", "app"]) []
        none none none (some distrolessBase)).config.Cmd = some ["sh", "-c", "app"] ∧
    (build_config_json "amd64" "linux" [] "/app" (some ["sh", "-c", "app"]) []
        none none none (some distrolessBase)).config.Entrypoint
        = some ["/usr/bin/python3"] := by
  refine ⟨by decide, ?_⟩
  have h := build_config_json_distroless_demotion "amd64" "linux" [] "/app" "sh"
    ["-c", "app"] [] none none none distrolessBase
    (by decide) (Or.inr (Or.inr (Or.inl rfl))) rfl
  exact h

/-- C5 counterexample to the claim as stated: the claim's hypotheses say
nothing about the application `cmd`, but when the application also sets
`cmd` (here `["serve"]`), oci.py line 56 overwrites the demoted value and
the merged `Cmd` is not the application entrypoint. -/
theorem build_config_json_distroless_demotion_cex :
    is_distroless distrolessBaseNoCmd = true ∧
    entrypointHeadIsShell (some ["sh", "-c", "app"]) = true ∧
    (build_config_json "amd64" "linux" [] "/app" (some ["sh", "-c", "app"]) []
        none none (some ["serve"]) (some distrolessBaseNoCmd)).config.Cmd
        = some ["serve"] ∧
    (build_config_json "amd64" "linux" [] "/app" (some ["sh", "-c", "app"]) []
        none none (some ["serve"]) (some distrolessBaseNoCmd)).config.Cmd
        ≠ some ["sh", "-c", "app"] := by
  refine ⟨by decide, by decide, by decide, by decide⟩

/-! ### C2 — platform resolution is absent from build() -/

/-- C2: the spec-modelled `parse_platform` validates `"<os>/<arch>"` exactly
as §8 scenario 2 demands, but src's `build()` never consults any platform
configuration: `BuildConfig` has no `platform` field and the
architecture/os pair passed to `build_config_json` is the constant
`("amd64", "linux")` for every configuration. -/
theorem parse_platform_vs_build :
    parse_platform "linux/arm64" = some ("linux", "arm64") ∧
    parse_platform "amd64" = none ∧
    parse_platform "linux/amd64/v2/extra" = none ∧
    parse_platform "" = none ∧
    ∀ c : BuildConfig, buildPlatformArgs c = ("amd64", "linux") := by
  exact ⟨rfl, rfl, rfl, rfl, fun _ => rfl⟩

/-! ### C1 — reproducible app-layer determinism -/

/-- C1 (amended): in reproducible mode, the *application layer's* emitted
tar entry sequence — and with it that layer's bytes and digest, which are
functions of the sequence — depends only on the multiset of
`(relative path, content)` pairs: any two enumerations of byte-identical
input files, in any filesystem order and with any host metadata (mtimes,
owners), produce identical entries.  Relative paths inside one layer are
pairwise distinct (they name distinct files of one context directory).
The equal-manifest-digest corollary therefore holds for builds without a
dependencies layer; with `include_deps` it fails (see the counterexample):
`_create_deps_layer` tars in enumeration order with host metadata. -/
theorem create_app_layer_reproducible_deterministic (workdir : String)
    (files1 files2 : List SrcFile)
    (hperm : (files1.map (fun f => (f.rel, f.content))).Perm
      (files2.map (fun f => (f.rel, f.content))))
    (hnd : ((files1.map (fun f => (f.rel, f.content))).map Prod.fst).Nodup) :
    create_app_layer_entries workdir true files1
      = create_app_layer_entries workdir true files2 := by
  have h1 := (List.perm_insertionSort relLeSrcFile files1).map
    (fun f => (f.rel, f.content))
  have h2 := (List.perm_insertionSort relLeSrcFile files2).map
    (fun f => (f.rel, f.content))
  have hkeyeq : (List.insertionSort relLeSrcFile files1).map
        (fun f => (f.rel, f.content))
      = (List.insertionSort relLeSrcFile files2).map
        (fun f => (f.rel, f.content)) := by
    apply sorted_nodup_fst_perm_eq
    · exact h1.trans (hperm.trans h2.symm)
    · exact List.Pairwise.map _ (fun a b hab => hab)
        (List.sorted_insertionSort relLeSrcFile files1)
    · exact List.Pairwise.map _ (fun a b hab => hab)
        (List.sorted_insertionSort relLeSrcFile files2)
    · exact ((h1.map Prod.fst).symm).nodup hnd
  have hcomp : ∀ fs : List SrcFile,
      fs.map (fun f =>
        ({ arcname := lstripSlash workdir ++ "/" ++ f.rel, mtime := 0, uid := 0,
           gid := 0, uname := "root", gname := "root",
           content := f.content } : TarEntry))
      = (fs.map (fun f => (f.rel, f.content))).map (fun p =>
          ({ arcname := lstripSlash workdir ++ "/" ++ p.1, mtime := 0, uid := 0,
             gid := 0, uname := "root", gname := "root",
             content := p.2 } : TarEntry)) := by
    intro fs
    rw [List.map_map]
    rfl
  show (List.insertionSort relLeSrcFile files1).map (fun f =>
      ({ arcname := lstripSlash workdir ++ "/" ++ f.rel, mtime := 0, uid := 0,
         gid := 0, uname := "root", gname := "root",
         content := f.content } : TarEntry))
    = (List.insertionSort relLeSrcFile files2).map (fun f =>
      ({ arcname := lstripSlash workdir ++ "/" ++ f.rel, mtime := 0, uid := 0,
         gid := 0, uname := "root", gname := "root",
         content := f.content } : TarEntry))
  rw [hcomp, hcomp, hkeyeq]

/-- Witness for `create_app_layer_reproducible_deterministic`: the fixture
runs enumerate the same two files in opposite order with different host
metadata and emit identical tar entries. -/
theorem create_app_layer_reproducible_deterministic_witness :
    create_app_layer_entries "/app" true c1files1
      = create_app_layer_entries "/app" true c1files2 :=
  create_app_layer_reproducible_deterministic "/app" c1files1 c1files2
    (by decide) (by decide)

/-- C1 counterexample to the claim as stated: the fixtures are two
enumerations of byte-identical input files (same multiset of
`(relative path, content)` pairs, opposite filesystem order, different host
metadata), yet `_create_deps_layer`'s tar emission — unsorted `tar.add`
with host metadata, also in reproducible mode — produces different entry
sequences, hence different dependencies-layer bytes and digest (the tar
headers carry the entry order and mtimes), hence different manifest digests
for an `include_deps` build: the claimed digest equality for *every*
configuration fails, while the application layer itself is deterministic. -/
theorem create_deps_layer_order_dependent_cex :
    (c1files1.map (fun f => (f.rel, f.content))).Perm
      (c1files2.map (fun f => (f.rel, f.content))) ∧
    create_deps_layer_entries "/app" c1files1
      ≠ create_deps_layer_entries "/app" c1files2 := by
  refine ⟨by decide, by decide⟩

/-! ### C4 — Env union with application override -/

/-- C4 (amended): provided distinct base `Env` entries carry pairwise
distinct KEYs (and the application env is a dict, so its keys are distinct),
each base `Env` entry `KEY=VALUE` appears in the merged `Env` unless the
application env defines the same KEY; a shadowed KEY appears exactly once,
carrying the application's value; and the merged pair list is exactly the
base entries (in base order, values overridden where shadowed) followed by
the application-added keys (in application order). -/
theorem build_config_json_env_union (a o : String) (env : List (String × String))
    (wd : String) (ep : Option (List String)) (xp : List Nat)
    (lb : Option (List (String × String))) (us : Option String)
    (cm : Option (List String)) (base : ImageConfig)
    (hbase : (dkeys (parsedBaseEnv base)).Nodup)
    (henv : (dkeys env).Nodup) :
    (build_config_json a o env wd ep xp lb us cm (some base)).config.Env
      = some ((mergedEnvPairs base env).map renderKV) ∧
    mergedEnvPairs base env
      = (parsedBaseEnv base).map (fun p => (p.1, (dlookup env p.1).getD p.2))
        ++ env.filter (fun q => decide (q.1 ∉ dkeys (parsedBaseEnv base))) ∧
    (∀ k v, (k, v) ∈ parsedBaseEnv base → dlookup env k = none →
      (k ++ "=" ++ v) ∈ (mergedEnvPairs base env).map renderKV) ∧
    (∀ k w, dlookup env k = some w →
      (k, w) ∈ mergedEnvPairs base env ∧
      (mergedEnvPairs base env).countP (fun p => decide (p.1 = k)) = 1 ∧
      (k ++ "=" ++ w) ∈ (mergedEnvPairs base env).map renderKV) := by
  have hM : mergedEnvPairs base env
      = (parsedBaseEnv base).map (fun p => (p.1, (dlookup env p.1).getD p.2))
        ++ env.filter (fun q => decide (q.1 ∉ dkeys (parsedBaseEnv base))) := by
    unfold mergedEnvPairs pyMerge
    have h0 : dfold [] (parsedBaseEnv base) = parsedBaseEnv base :=
      dfold_nil_of_nodup _ hbase
    rw [h0, h0]
    exact dfold_eq env (parsedBaseEnv base) hbase henv
  have hnodupM : (dkeys (mergedEnvPairs base env)).Nodup := by
    unfold mergedEnvPairs pyMerge
    exact nodup_dkeys_dfold env _
      (nodup_dkeys_dfold (dfold [] (parsedBaseEnv base)) [] (by simp [dkeys]))
  refine ⟨?_, hM, ?_, ?_⟩
  · rw [show (build_config_json a o env wd ep xp lb us cm (some base)).config
        = addExposedPorts xp (mergeInner env wd ep lb us cm base) from rfl,
      addExposedPorts_Env]
    unfold mergeInner
    rw [mergeStepLabels_Env, mergeStepUser_Env, mergeStepCmd_Env,
      mergeStepEntrypoint_Env]
    rfl
  · intro k v hkv hnone
    have hmem : (k, v) ∈ mergedEnvPairs base env := by
      rw [hM]
      apply List.mem_append_left
      have heq : (fun p : String × String => (p.1, (dlookup env p.1).getD p.2)) (k, v)
          = (k, v) := by
        simp [hnone]
      rw [← heq]
      exact List.mem_map_of_mem _ hkv
    exact List.mem_map_of_mem renderKV hmem
  · intro k w hw
    have hmem : (k, w) ∈ mergedEnvPairs base env := by
      rw [hM]
      by_cases hk : k ∈ dkeys (parsedBaseEnv base)
      · obtain ⟨p, hp, hpk⟩ := List.mem_map.mp hk
        apply List.mem_append_left
        have heq : (p.1, (dlookup env p.1).getD p.2) = (k, w) := by
          rw [hpk, hw]
          rfl
        rw [← heq]
        exact List.mem_map_of_mem _ hp
      · apply List.mem_append_right
        exact List.mem_filter.mpr ⟨dlookup_mem env k w hw, by simpa using hk⟩
    exact ⟨hmem, countP_key_eq_one _ hnodupM k w hmem,
      List.mem_map_of_mem renderKV hmem⟩

/-- Witness for `build_config_json_env_union`: spec scenario 3 — base
`Env=["PATH=/usr/bin","PYTHON=3.11"]` and application `env={"DEBUG":"true"}`
merge to base-first order with the application key appended. -/
theorem build_config_json_env_union_witness :
    (build_config_json "amd64" "linux" [("DEBUG", "true")] "/app"
        (some ["python", "-m", "myapp"]) [] none none none
        (some c4scenarioBase)).config.Env
      = some ["PATH=/usr/bin", "PYTHON=3.11", "DEBUG=true"] := by
  have h := build_config_json_env_union "amd64" "linux" [("DEBUG", "true")]
    "/app" (some ["python", "-m", "myapp"]) [] none none none c4scenarioBase
    (by decide) (by decide)
  rw [h.1]
  decide

/-- C4 counterexample to the claim as stated: with a base `Env` that repeats
a KEY (`["K=1","K=2"]`) and an empty application env, the dict comprehension
collapses the duplicates, so the base entry `K=1` is missing from the merged
`Env` even though the application env does not define `K`. -/
theorem build_config_json_env_union_cex :
    (build_config_json "amd64" "linux" [] "/app" none [] none none none
        (some c4base)).config.Env = some ["K=2"] ∧
    ("K", "1") ∈ parsedBaseEnv c4base ∧
    dlookup ([] : List (String × String)) "K" = none ∧
    "K=1" ∉ (["K=2"] : List String) := by
  refine ⟨by decide, by decide, rfl, by decide⟩

/-! ### C8 — cache: store followed by lookup -/

/-- C8 (amended): `store_layer(files, d, tar)` immediately followed by
`get_layer(files)` returns `(d, <cache blob name>)`, provided no input
file's size or truncated-second mtime changed between the calls (the two
calls see the same `stat` oracle) **and** the store's eviction pass is not
triggered — the recorded total stays within `max_size_bytes` — so that the
fresh entry (and its blob) survives. -/
theorem store_then_get (c : LayerCache) (stat : String → Option (Nat × Nat))
    (files : List (String × String)) (digest : String) (layerSize t t' : Nat)
    (hen : c.enabled = true)
    (hfit : sumSizes (store_layer_pre c stat files digest layerSize t).index
      ≤ c.max_size_bytes) :
    (get_layer (store_layer c stat files digest layerSize t) stat files t').1
      = some (digest, hexPart digest) := by
  have hnoev : store_layer c stat files digest layerSize t
      = store_layer_pre c stat files digest layerSize t := by
    unfold store_layer
    rw [if_neg (by simp [hen])]
    unfold evict_if_needed
    rw [if_pos (show sumSizes (store_layer_pre c stat files digest layerSize t).index
      ≤ (store_layer_pre c stat files digest layerSize t).max_size_bytes from hfit)]
  rw [hnoev]
  unfold get_layer
  rw [if_neg (by simp [store_layer_pre, hen])]
  have hl : dlookup (store_layer_pre c stat files digest layerSize t).index
      (compute_files_digest stat files)
      = some (storedEntry c files digest layerSize t) :=
    dlookup_dinsert_self _ _ _
  rw [hl]
  have hmem : hexPart (storedEntry c files digest layerSize t).digest
      ∈ dkeys (store_layer_pre c stat files digest layerSize t).blobs := by
    show hexPart digest ∈ dkeys (storedBlobs c (hexPart digest) layerSize)
    unfold storedBlobs
    by_cases hb : hexPart digest ∈ dkeys c.blobs
    · rw [if_pos hb]
      exact hb
    · rw [if_neg hb]
      simp [dkeys]
  simp only [storedEntry] at hmem
  simp [storedEntry, hmem]

/-- Witness for `store_then_get`: a 100-byte layer stored in an empty
1000-byte cache is found again immediately. -/
theorem store_then_get_witness :
    (get_layer (store_layer bigCache (fun _ => some (3, 0)) [("a", "a")]
        "sha256:aa" 100 0) (fun _ => some (3, 0)) [("a", "a")] 1).1
      = some ("sha256:aa", "aa") := by
  have h := store_then_get bigCache (fun _ => some (3, 0)) [("a", "a")]
    "sha256:aa" 100 0 1 rfl (by decide)
  exact h

/-- C8 counterexample to the claim as stated: storing a 100-byte layer into
an (empty) cache whose limit is 10 bytes triggers the eviction pass at the
end of `store_layer`, which drops the entry that was just stored and unlinks
its blob, so the immediately following `get_layer` over unchanged input
files misses. -/
theorem store_then_get_cex :
    (get_layer (store_layer smallCache (fun _ => some (3, 0)) [("a", "a")]
        "sha256:aa" 100 0) (fun _ => some (3, 0)) [("a", "a")] 1).1 = none := by
  decide

/-! ### C9 — cache eviction invariant -/

theorem sumSizes_cons (p : String × CacheEntry) (l : List (String × CacheEntry)) :
    sumSizes (p :: l) = p.2.size + sumSizes l := by
  simp [sumSizes]

theorem sumSizes_perm {l₁ l₂ : List (String × CacheEntry)} (h : l₁.Perm l₂) :
    sumSizes l₁ = sumSizes l₂ := by
  unfold sumSizes
  exact (h.map (fun p => p.2.size)).sum_eq

theorem evictLoop_split (maxB : Nat) :
    ∀ (total : Nat) (l : List (String × CacheEntry)),
      (evictLoop maxB total l).1 ++ (evictLoop maxB total l).2 = l := by
  intro total l
  induction l generalizing total with
  | nil => rfl
  | cons x rest ih =>
    unfold evictLoop
    split
    · rfl
    · simpa using ih (total - x.2.size)

theorem evictLoop_kept_bound (maxB : Nat) :
    ∀ (total : Nat) (l : List (String × CacheEntry)), total = sumSizes l →
      5 * sumSizes (evictLoop maxB total l).2 ≤ 4 * maxB := by
  intro total l
  induction l generalizing total with
  | nil =>
    intro _
    simp [evictLoop, sumSizes]
  | cons x rest ih =>
    intro ht
    unfold evictLoop
    split
    · rename_i hstop
      rw [← ht]
      omega
    · exact ih (total - x.2.size) (by rw [ht, sumSizes_cons]; omega)

theorem eq_of_mem_nodup_keys {β : Type} :
    ∀ (l : List (String × β)), (dkeys l).Nodup →
      ∀ p ∈ l, ∀ q ∈ l, p.1 = q.1 → p = q := by
  intro l
  induction l with
  | nil =>
    intro _ p hp
    cases hp
  | cons a t ih =>
    intro hnd p hp q hq hpq
    have ha : a.1 ∉ dkeys t := (List.nodup_cons.mp hnd).1
    have hnd' : (dkeys t).Nodup := (List.nodup_cons.mp hnd).2
    rcases List.mem_cons.mp hp with hp' | hp' <;> rcases List.mem_cons.mp hq with hq' | hq'
    · rw [hp', hq']
    · exfalso
      apply ha
      rw [hp'] at hpq
      rw [hpq]
      exact List.mem_map_of_mem Prod.fst hq'
    · exfalso
      apply ha
      rw [hq'] at hpq
      rw [← hpq]
      exact List.mem_map_of_mem Prod.fst hp'
    · exact ih hnd' p hp' q hq' hpq

theorem filter_not_dropped_perm (dropped kept sorted index : List (String × CacheEntry))
    (hsplit : dropped ++ kept = sorted) (hperm : sorted.Perm index)
    (hnd : (dkeys sorted).Nodup) :
    (index.filter (fun p => decide (p.1 ∉ dkeys dropped))).Perm kept := by
  subst hsplit
  have hndapp : (dkeys dropped ++ dkeys kept).Nodup := by
    rw [show dkeys dropped ++ dkeys kept = dkeys (dropped ++ kept) from
      (List.map_append _ _ _).symm]
    exact hnd
  have hdisj := (List.nodup_append.mp hndapp).2.2
  have hfd : dropped.filter (fun p => decide (p.1 ∉ dkeys dropped)) = [] := by
    apply List.filter_eq_nil_iff.mpr
    intro a ha
    simp only [decide_eq_true_eq, Decidable.not_not]
    exact List.mem_map_of_mem Prod.fst ha
  have hfk : kept.filter (fun p => decide (p.1 ∉ dkeys dropped)) = kept := by
    apply List.filter_eq_self.mpr
    intro a ha
    simp only [decide_eq_true_eq]
    intro hmem
    exact hdisj hmem (List.mem_map_of_mem Prod.fst ha)
  have h2 : (dropped ++ kept).filter (fun p => decide (p.1 ∉ dkeys dropped)) = kept := by
    rw [List.filter_append, hfd, hfk, List.nil_append]
  rw [← h2]
  exact (hperm.filter _).symm

theorem mem_dropped_of_filtered_out (dropped kept sorted index : List (String × CacheEntry))
    (hsplit : dropped ++ kept = sorted) (hperm : sorted.Perm index)
    (hnd : (dkeys sorted).Nodup) (p : String × CacheEntry) (hp : p ∈ index)
    (hkey : p.1 ∉ dkeys (index.filter (fun q => decide (q.1 ∉ dkeys dropped)))) :
    p ∈ dropped := by
  subst hsplit
  have hf : p.1 ∈ dkeys dropped := by
    by_contra hnf
    exact hkey (List.mem_map_of_mem Prod.fst
      (List.mem_filter.mpr ⟨hp, by simpa using hnf⟩))
  obtain ⟨q', hq', hq'key⟩ := List.mem_map.mp hf
  have hq'in : q' ∈ dropped ++ kept := List.mem_append_left _ hq'
  have hpin : p ∈ dropped ++ kept := hperm.mem_iff.mpr hp
  have : q' = p := eq_of_mem_nodup_keys _ hnd q' hq'in p hpin hq'key
  rw [← this]
  exact hq'

theorem mem_kept_of_in_filter (dropped kept sorted index : List (String × CacheEntry))
    (hsplit : dropped ++ kept = sorted) (hperm : sorted.Perm index)
    (q : String × CacheEntry)
    (hq : q ∈ index.filter (fun p => decide (p.1 ∉ dkeys dropped))) : q ∈ kept := by
  subst hsplit
  obtain ⟨hqidx, hqf⟩ := List.mem_filter.mp hq
  simp only [decide_eq_true_eq] at hqf
  rcases List.mem_append.mp (hperm.mem_iff.mpr hqidx) with hqd | hqk
  · exact absurd (List.mem_map_of_mem Prod.fst hqd) hqf
  · exact hqk

/-- C9: after an eviction pass, the recorded total is at most
`max_size_bytes` (at most 80% of it when the pass was triggered), every
evicted entry's blob is gone from the blobs directory, and entries are
dropped in ascending `last_used` order (every evicted entry's `last_used`
is at most every survivor's).  The index is a Python dict, so its keys are
pairwise distinct. -/
theorem evict_if_needed_invariant (c : LayerCache)
    (hnd : (dkeys c.index).Nodup) :
    sumSizes (evict_if_needed c).index ≤ c.max_size_bytes ∧
    (¬ sumSizes c.index ≤ c.max_size_bytes →
      5 * sumSizes (evict_if_needed c).index ≤ 4 * c.max_size_bytes) ∧
    (∀ p ∈ c.index, p.1 ∉ dkeys (evict_if_needed c).index →
      hexPart p.2.digest ∉ dkeys (evict_if_needed c).blobs) ∧
    (∀ p ∈ c.index, p.1 ∉ dkeys (evict_if_needed c).index →
      ∀ q ∈ (evict_if_needed c).index, p.2.last_used ≤ q.2.last_used) := by
  by_cases hle : sumSizes c.index ≤ c.max_size_bytes
  · have heq : evict_if_needed c = c := by
      unfold evict_if_needed
      rw [if_pos hle]
    rw [heq]
    refine ⟨hle, fun h => absurd hle h, ?_, ?_⟩
    · intro p hp hkey
      exact absurd (List.mem_map_of_mem Prod.fst hp) hkey
    · intro p hp hkey
      exact absurd (List.mem_map_of_mem Prod.fst hp) hkey
  · have heq : evict_if_needed c = { c with
        index := c.index.filter (fun p => decide (p.1 ∉ dkeys (evictedPairs c))),
        blobs := c.blobs.filter (fun b =>
          decide (b.1 ∉ (evictedPairs c).map (fun p => hexPart p.2.digest))) } := by
      unfold evict_if_needed
      rw [if_neg hle]
    have hperm : (List.insertionSort relLeUsed c.index).Perm c.index :=
      List.perm_insertionSort relLeUsed c.index
    have hsplit : evictedPairs c ++
        (evictLoop c.max_size_bytes (sumSizes c.index)
          (List.insertionSort relLeUsed c.index)).2
        = List.insertionSort relLeUsed c.index :=
      evictLoop_split c.max_size_bytes (sumSizes c.index) _
    have hsortnd : (dkeys (List.insertionSort relLeUsed c.index)).Nodup :=
      ((hperm.map Prod.fst).symm).nodup hnd
    have hpermfilter := filter_not_dropped_perm (evictedPairs c)
      (evictLoop c.max_size_bytes (sumSizes c.index)
        (List.insertionSort relLeUsed c.index)).2
      (List.insertionSort relLeUsed c.index) c.index hsplit hperm hsortnd
    have hbound : 5 * sumSizes ((evictLoop c.max_size_bytes (sumSizes c.index)
        (List.insertionSort relLeUsed c.index)).2) ≤ 4 * c.max_size_bytes :=
      evictLoop_kept_bound c.max_size_bytes (sumSizes c.index) _
        (sumSizes_perm hperm).symm
    have hsum : sumSizes ((evict_if_needed c).index)
        = sumSizes ((evictLoop c.max_size_bytes (sumSizes c.index)
            (List.insertionSort relLeUsed c.index)).2) := by
      rw [heq]
      exact sumSizes_perm hpermfilter
    have hdropped : ∀ p ∈ c.index, p.1 ∉ dkeys (evict_if_needed c).index →
        p ∈ evictedPairs c := by
      intro p hp hkey
      rw [heq] at hkey
      exact mem_dropped_of_filtered_out (evictedPairs c)
        (evictLoop c.max_size_bytes (sumSizes c.index)
          (List.insertionSort relLeUsed c.index)).2
        (List.insertionSort relLeUsed c.index) c.index hsplit hperm hsortnd
        p hp hkey
    refine ⟨?_, ?_, ?_, ?_⟩
    · rw [hsum]
      omega
    · intro _
      rw [hsum]
      omega
    · intro p hp hkey habs
      have hpdrop := hdropped p hp hkey
      rw [heq] at habs
      obtain ⟨b, hb, hbkey⟩ := List.mem_map.mp habs
      obtain ⟨_, hbg⟩ := List.mem_filter.mp hb
      simp only [decide_eq_true_eq] at hbg
      apply hbg
      rw [hbkey]
      exact List.mem_map_of_mem _ hpdrop
    · intro p hp hkey q hq
      have hpdrop := hdropped p hp hkey
      rw [heq] at hq
      have hqkept := mem_kept_of_in_filter (evictedPairs c)
        (evictLoop c.max_size_bytes (sumSizes c.index)
          (List.insertionSort relLeUsed c.index)).2
        (List.insertionSort relLeUsed c.index) c.index hsplit hperm q hq
      have hsorted : List.Sorted relLeUsed (List.insertionSort relLeUsed c.index) :=
        List.sorted_insertionSort relLeUsed c.index
      have hpair := List.pairwise_append.mp (by rw [hsplit]; exact hsorted)
      exact hpair.2.2 p hpdrop q hqkept

/-- Witness for `evict_if_needed_invariant`: two 80-byte entries in a
100-byte cache; after eviction the total is 80 ≤ 100, and the evicted
older entry's blob `aa` is gone from the blobs directory. -/
theorem evict_if_needed_invariant_witness :
    sumSizes (evict_if_needed c9cache).index ≤ c9cache.max_size_bytes ∧
    hexPart c9e1.digest ∉ dkeys (evict_if_needed c9cache).blobs := by
  have h := evict_if_needed_invariant c9cache (by decide)
  exact ⟨h.1, h.2.2.1 ("f1", c9e1) (by decide) (by decide)⟩

/-! ### C10 — build_config_json mutates its base_config argument -/

/-- C10: after `build_config_json` returns, the caller's `base_config`
argument has kept its own top-level entries but its nested `'config'`
sub-object — shared with the returned copy by the shallow `dict.copy()` —
holds exactly the merged config's fields; concretely, a base whose `Env` was
`["A=1"]` is left holding `Env=["A=1","B=2"]` after a merge with application
env `{"B": "2"}`. -/
theorem build_config_json_post_mutates (a o : String)
    (env : List (String × String)) (wd : String) (ep : Option (List String))
    (xp : List Nat) (lb : Option (List (String × String))) (us : Option String)
    (cm : Option (List String)) (base : ImageConfig) :
    (build_config_json_post env wd ep xp lb us cm base).2.config
        = (build_config_json a o env wd ep xp lb us cm (some base)).config ∧
    (build_config_json_post env wd ep xp lb us cm base).2.architecture
        = base.architecture ∧
    (build_config_json_post env wd ep xp lb us cm base).2.os = base.os ∧
    (build_config_json_post [("B", "2")] "/app" none [] none none none
        { config := { Env := some ["A=1"] } }).2.config.Env = some ["A=1", "B=2"] ∧
    (build_config_json_post [("B", "2")] "/app" none [] none none none
        { config := { Env := some ["A=1"] } }).2.config.Env
        ≠ ({ config := { Env := some ["A=1"] } } : ImageConfig).config.Env := by
  refine ⟨rfl, rfl, rfl, by decide, by decide⟩

end PyContainer
